import Mathlib

/-!
Verification of the CareerCompass recommendation/quiz/tracker logic.

Each definition below is a shallow embedding of a function or state
transition from the repository's source (component files under
`src/components/`). Timestamps are modelled as integers counting
milliseconds (the JavaScript epoch-milliseconds representation);
`Date` parsing is abstracted as a `String → Option Int` parameter, and
the local timezone as a fixed millisecond offset (no daylight-saving
shifts, as in the IST locale the app targets).
-/

namespace CareerCompass

/-- Model of JavaScript `String.prototype.includes` on character lists:
`needle` occurs contiguously inside `hay`. -/
def listIncludes (hay needle : List Char) : Bool :=
  match hay with
  | [] => needle.isEmpty
  | _ :: t => needle.isPrefixOf hay || listIncludes t needle

/-- Model of JavaScript `s.includes(pat)` on strings. -/
def strIncludes (s pat : String) : Bool :=
  listIncludes s.data pat.data

/-- Model of JavaScript `s.toLowerCase()`: character-wise lowercasing
(semantically `String.toLower`, stated over the character list so terms
reduce inside the kernel). -/
def strToLower (s : String) : String :=
  ⟨s.data.map Char.toLower⟩

/-- Model of JavaScript `s.trim()`: strip leading and trailing
whitespace. -/
def jsTrim (s : String) : String :=
  ⟨((s.data.dropWhile Char.isWhitespace).reverse.dropWhile Char.isWhitespace).reverse⟩

/-- Model of JavaScript `s.endsWith("k")` for the one-character suffix
used by the amount parser. -/
def endsWithK (s : String) : Bool :=
  s.data.getLast? == some 'k'

/-! ## Aptitude quiz: heuristic scorer (`mockEvaluate` in `AptitudeQuiz.tsx`) -/

/-- The four academic streams of the scorer's bucket record. -/
inductive StreamName where
  | Arts
  | Science
  | Commerce
  | Vocational
deriving DecidableEq, Repr

/-- The `buckets` record of `mockEvaluate`: one numeric score per stream.
Scores are JS numbers that only ever receive non-negative increments;
we model them as integers. -/
structure Buckets where
  arts : Int
  science : Int
  commerce : Int
  vocational : Int
deriving DecidableEq, Repr

def Buckets.score (b : Buckets) : StreamName → Int
  | .Arts => b.arts
  | .Science => b.science
  | .Commerce => b.commerce
  | .Vocational => b.vocational

/-- The key list of the `buckets` object literal, in declaration order
(JS `Object.keys` order for this fixed-shape record). -/
def Buckets.keys : List StreamName :=
  [.Arts, .Science, .Commerce, .Vocational]

/-- An `Object.entries`-style view of the bucket record. -/
def Buckets.entries (b : Buckets) : List (StreamName × Int) :=
  Buckets.keys.map (fun st => (st, b.score st))

/-- The test `v.includes("logic") || v.includes("math") || v.includes("science")`
on the lowercased answer value. -/
def hasScienceKeyword (val : String) : Bool :=
  let v := strToLower val
  strIncludes v "logic" || strIncludes v "math" || strIncludes v "science"

def hasCommerceKeyword (val : String) : Bool :=
  let v := strToLower val
  strIncludes v "business" || strIncludes v "finance" || strIncludes v "commerce"

def hasArtsKeyword (val : String) : Bool :=
  let v := strToLower val
  strIncludes v "creative" || strIncludes v "art" || strIncludes v "design" ||
    strIncludes v "language"

/-- One step of the `Object.values(answers).forEach` loop in
`mockEvaluate`: the first matching keyword family adds 2 to its bucket,
an unmatched value adds 1 to `Vocational`. -/
def bucketStep (b : Buckets) (val : String) : Buckets :=
  if hasScienceKeyword val then { b with science := b.science + 2 }
  else if hasCommerceKeyword val then { b with commerce := b.commerce + 2 }
  else if hasArtsKeyword val then { b with arts := b.arts + 2 }
  else { b with vocational := b.vocational + 1 }

/-- The full bucket accumulation over the answer values, starting from
the all-zero record. -/
def computeBuckets (values : List String) : Buckets :=
  values.foldl bucketStep ⟨0, 0, 0, 0⟩

/-- JS `Array.prototype.sort` with a consistent comparator is the stable
sort by `cmp a b ≤ 0`; `List.insertionSort` with that relation has
exactly these semantics (insert before the first element the new one
compares `≤ 0` against, processing from the left). -/
def jsSortBy (cmp : α → α → Int) (l : List α) : List α :=
  List.insertionSort (fun a b => cmp a b ≤ 0) l

/-- Variant of `jsSortBy` for comparators returning a rational (JS comparators
return arbitrary numbers; only the sign matters). -/
def jsSortByQ (cmp : α → α → ℚ) (l : List α) : List α :=
  List.insertionSort (fun a b => cmp a b ≤ 0) l

/-- The stream comparator `(a, b) => buckets[b] - buckets[a]` (descending
score). -/
def streamCmp (b : Buckets) (x y : StreamName) : Int :=
  b.score y - b.score x

/-- The expression `Object.keys(buckets).sort(...)` in `mockEvaluate`. -/
def sortedStreams (b : Buckets) : List StreamName :=
  jsSortBy (streamCmp b) Buckets.keys

/-- The `AnswerMap`: question id → chosen option value, as an
insertion-ordered association list (a JS object). -/
abbrev AnswerMap := List (String × String)

/-- The values `Object.values(answers)` in iteration order. -/
def answerValues (answers : AnswerMap) : List String :=
  answers.map Prod.snd

/-- Result record returned by the scorer. -/
structure QuizResults where
  streamScores : Buckets
  summary : String
  recommended : List StreamName
deriving DecidableEq, Repr

def streamLabel : StreamName → String
  | .Arts => "Arts"
  | .Science => "Science"
  | .Commerce => "Commerce"
  | .Vocational => "Vocational"

/-- The templated summary sentence of `mockEvaluate` (`sorted[1]` always
exists here since there are four streams). -/
def summarySentence (sorted : List StreamName) : String :=
  "You show strengths aligned with " ++
    (match sorted.head? with | some s => streamLabel s | none => "") ++
    (match sorted.get? 1 with
     | some s => " and " ++ streamLabel s
     | none => "") ++
    ". Explore related subjects and projects to validate your interest."

/-- Shallow embedding of `mockEvaluate` (`AptitudeQuiz.tsx`): score the
answers into buckets, sort the streams by descending score (stable),
recommend the top two. The `setTimeout` delay and promise wrapper are
pure latency and are dropped. -/
def mockEvaluate (answers : AnswerMap) : QuizResults :=
  let buckets := computeBuckets (answerValues answers)
  let sorted := sortedStreams buckets
  { streamScores := buckets
    summary := summarySentence sorted
    recommended := sorted.take 2 }

/-! ## Aptitude quiz: phase state machine (`AptitudeQuiz.tsx`) -/

inductive Phase where
  | quiz
  | review
  | submitting
  | result
deriving DecidableEq, Repr

/-- The component state touched by `handleRetake` and `handleSubmit`:
phase, question cursor, answer map, remaining seconds, stored result. -/
structure QuizState where
  phase : Phase
  index : Nat
  answers : AnswerMap
  remaining : Nat
  results : Option QuizResults
deriving Repr

/-- Shallow embedding of `handleRetake`: clears every piece of quiz
state and returns to the `quiz` phase with the configured duration. -/
def handleRetake (durationSec : Nat) (_s : QuizState) : QuizState :=
  { phase := .quiz
    index := 0
    answers := []
    remaining := durationSec
    results := none }

/-- Shallow embedding of `handleSubmit`: the phase is set to
`submitting`, then the awaited scoring call either resolves (`.ok`) —
store the result, move to `result` — or rejects (`.error`) — move back
to `review` and surface an error toast. The returned `Bool` records
whether the error toast was raised. -/
def handleSubmit (s : QuizState) (outcome : Except String QuizResults) :
    QuizState × Bool :=
  let s1 := { s with phase := Phase.submitting }
  match outcome with
  | .ok res => ({ s1 with results := some res, phase := .result }, false)
  | .error _ => ({ s1 with phase := .review }, true)

/-! ## `escapeHtml` (`AptitudeQuiz.tsx`, college map info windows) -/

/-- One global single-character `String.replace`: every occurrence of
`c` becomes the character list `repl`. -/
def replaceChar (c : Char) (repl : List Char) (s : List Char) : List Char :=
  (s.map (fun x => if x = c then repl else [x])).flatten

/-- Shallow embedding of `escapeHtml`: the chained
`.replace(/&/g,"&amp;").replace(/</g,"&lt;").replace(/>/g,"&gt;").replace(/"/g,"&quot;")`. -/
def escapeHtml (s : String) : String :=
  ⟨replaceChar '"' "&quot;".data
    (replaceChar '>' "&gt;".data
      (replaceChar '<' "&lt;".data
        (replaceChar '&' "&amp;".data s.data)))⟩

/-! ## Scholarship amounts (`parseAmount` in `ScholarshipsTrackerSection.tsx`) -/

/-- A scholarship `amount` field: `number | string` in the source. -/
inductive AmountVal where
  | num (q : ℚ)
  | str (s : String)
deriving DecidableEq, Repr

def natOfDigits (l : List Char) : Nat :=
  l.foldl (fun acc c => acc * 10 + (c.toNat - 48)) 0

/-- Model of JavaScript `parseFloat` for plain decimal literals:
optional sign, then digits with an optional fractional part; `none`
models `NaN` (no leading numeric prefix). Exponent notation and
`Infinity` are outside the inputs this code meets and are not
modelled. -/
def jsParseFloat (s : String) : Option ℚ :=
  let cs := s.data.dropWhile Char.isWhitespace
  let sign : ℚ := if cs.head? = some '-' then -1 else 1
  let cs := if cs.head? = some '-' ∨ cs.head? = some '+' then cs.tail else cs
  let intPart := cs.takeWhile Char.isDigit
  let rest := cs.dropWhile Char.isDigit
  let fracPart := if rest.head? = some '.' then rest.tail.takeWhile Char.isDigit else []
  if intPart.isEmpty ∧ fracPart.isEmpty then none
  else some (sign * ((natOfDigits intPart : ℚ) +
    (natOfDigits fracPart : ℚ) / (10 : ℚ) ^ fracPart.length))

/-- The character class `[,₹\s]` stripped by `parseAmount`. -/
def isStrippedAmountChar (c : Char) : Bool :=
  c = ',' || c = '₹' || c.isWhitespace

/-- The `clean` intermediate of `parseAmount`:
`val.replace(/[,₹\s]/g, "").toLowerCase()`. -/
def cleanAmount (v : String) : String :=
  ⟨(v.data.filter (fun c => !isStrippedAmountChar c)).map Char.toLower⟩

/-- Shallow embedding of `parseAmount`: numbers pass through; strings
are stripped of `[,₹\s]`, lowercased, a trailing `k` multiplies the
parsed prefix by 1000, and an unparseable remainder yields 0. -/
def parseAmount : AmountVal → ℚ
  | .num q => q
  | .str v =>
    if endsWithK (cleanAmount v) then
      match jsParseFloat ⟨(cleanAmount v).data.dropLast⟩ with
      | none => 0
      | some n => n * 1000
    else
      match jsParseFloat (cleanAmount v) with
      | none => 0
      | some n => n

/-! ## Date arithmetic (deadline windows and reminders) -/

/-- Milliseconds per day, the divisor `1000 * 60 * 60 * 24`. -/
def msPerDay : Int := 86400000

/-- Ceiling division `Math.ceil(a / b)` for integer `a` and positive integer `b`
(the JS division is exact enough here: `a` and `b` are integral and the
quotient magnitude is far below 2^52). -/
def ceilDiv (a b : Int) : Int := -((-a) / b)

/-- The deadline-window predicate of the `filtered` memo in
`ScholarshipsTrackerSection.tsx`: falsy (`null`/empty) deadlines are
excluded, unparseable dates (`isNaN(d.getTime())`) are excluded,
otherwise the record is kept iff
`Math.ceil((d - now) / msPerDay) ∈ [0, days]`. `parseDate` abstracts
`new Date(string).getTime()` (returning `none` for `NaN`). -/
def inDeadlineWindow (parseDate : String → Option Int) (now : Int)
    (days : Int) (deadline : Option String) : Bool :=
  match deadline with
  | none => false
  | some ds =>
    if ds = "" then false
    else
      match parseDate ds with
      | none => false
      | some d =>
        let diff := ceilDiv (d - now) msPerDay
        decide (0 ≤ diff ∧ diff ≤ days)

/-- Local midnight before instant `t` under a fixed UTC offset `tz`
(in milliseconds, no daylight-saving transitions). -/
def localMidnight (tz t : Int) : Int :=
  ((t + tz) / msPerDay) * msPerDay - tz

/-- The steps `t.setDate(t.getDate() + 1); t.setHours(9, 0, 0, 0)` applied to
`now`: 09:00 local time on the following local day. -/
def tomorrowAt9 (tz now : Int) : Int :=
  localMidnight tz (now + msPerDay) + 9 * 3600000

/-- Shallow embedding of `suggestReminder`: falsy or unparseable
deadlines give no reminder; otherwise the reminder is the deadline
minus 5 days, pushed to tomorrow 09:00 local when that target is
already past. The returned instant stands for the ISO string the
source produces from it. -/
def suggestReminder (parseDate : String → Option Int) (tz now : Int)
    (deadline : Option String) : Option Int :=
  match deadline with
  | none => none
  | some ds =>
    if ds = "" then none
    else
      match parseDate ds with
      | none => none
      | some d =>
        let reminder := d - 5 * msPerDay
        if reminder < now then some (tomorrowAt9 tz now) else some reminder

/-! ## Scholarship records, sanitization and the filter engine -/

/-- Sanitized scholarship record (the `Scholarship` type of
`ScholarshipsTrackerSection.tsx` after `sanitizeScholarships`). -/
structure Scholarship where
  id : String
  name : String
  amount : AmountVal
  eligibility : String
  deadline : Option String
  category : String
  source : Option String
  link : Option String
  documents : Option (List String)
deriving DecidableEq, Repr

/-- A raw API record before sanitization: every field may be missing
(`Option.none` models both `undefined` and `null`). A `none` list entry
models a non-object (falsy) array element. -/
structure RawScholarship where
  id : Option String
  name : Option String
  amount : Option AmountVal
  eligibility : Option String
  deadline : Option String
  category : Option String
  source : Option String
  link : Option String
  documents : Option (List String)
deriving Repr

/-- JS string truthiness: present and non-empty. -/
def truthyStr : Option String → Bool
  | none => false
  | some s => s ≠ ""

/-- JS `s || d` for a string field with default `d`. -/
def orDefault (o : Option String) (d : String) : String :=
  match o with
  | none => d
  | some s => if s = "" then d else s

/-- JS `s || undefined` / `s || null`: empty strings collapse to absent. -/
def noneIfFalsy (o : Option String) : Option String :=
  match o with
  | none => none
  | some s => if s = "" then none else some s

/-- Shallow embedding of one step of `sanitizeScholarships`: records
that are falsy or miss a truthy `id` or `name` are dropped; surviving
records get their optional fields defaulted exactly as in the source
(`amount ?? 0`, `eligibility || …`, `category || "General"`,
`link/source || undefined`, `deadline || null`, array-checked
`documents`). -/
def sanitizeOne : Option RawScholarship → Option Scholarship
  | none => none
  | some r =>
    if truthyStr r.id ∧ truthyStr r.name then
      some
        { id := r.id.getD ""
          name := r.name.getD ""
          amount := r.amount.getD (.num 0)
          eligibility := orDefault r.eligibility "Eligibility details not provided"
          deadline := noneIfFalsy r.deadline
          category := orDefault r.category "General"
          source := noneIfFalsy r.source
          link := noneIfFalsy r.link
          documents := r.documents }
    else none

/-- Shallow embedding of `sanitizeScholarships` (filter then map,
fused as a `filterMap`). -/
def sanitizeScholarships (l : List (Option RawScholarship)) : List Scholarship :=
  l.filterMap sanitizeOne

/-- The stringification `String(s.amount)` as used by the text-query filter. JS prints
integral numbers without a fractional part; non-integral rationals are
approximated by their `num/den` rendering (the query filter's behavior
on such amounts is not load-bearing for any claim). -/
def amountToString : AmountVal → String
  | .str s => s
  | .num q => if q.den = 1 then toString q.num else toString q

/-- The filter criteria of the `filtered` memo: text query, exact
category, eligibility substring, deadline window (`none` = "all"),
amount sort order (`some true` = ascending). -/
structure Criteria where
  query : String
  category : Option String
  eligibility : Option String
  deadlineWindow : Option Int
  amountOrder : Option Bool

/-- The text-query predicate: case-insensitive substring match against
name, eligibility, category, or the stringified amount (`q` is already
lowercased by the caller, as in the source). -/
def matchesQuery (q : String) (s : Scholarship) : Bool :=
  strIncludes (strToLower s.name) q || strIncludes (strToLower s.eligibility) q ||
    strIncludes (strToLower s.category) q || strIncludes (strToLower (amountToString s.amount)) q

/-- Stage 1 of the `filtered` memo: `if (query.trim()) list =
list.filter(...)` — case-insensitive text query. -/
def queryStage (q : String) (l : List Scholarship) : List Scholarship :=
  if jsTrim q ≠ "" then l.filter (matchesQuery (strToLower q)) else l

/-- Stage 2: `if (category) list = list.filter(s => s.category === category)`. -/
def categoryStage (cat : Option String) (l : List Scholarship) : List Scholarship :=
  match cat with
  | some c => l.filter (fun s => s.category = c)
  | none => l

/-- Stage 3: `if (eligibility) list = list.filter(s =>
(s.eligibility || "").includes(eligibility))`. -/
def eligibilityStage (e : Option String) (l : List Scholarship) : List Scholarship :=
  match e with
  | some el => l.filter (fun s => strIncludes s.eligibility el)
  | none => l

/-- Stage 4: the deadline-window narrowing. -/
def deadlineStage (parseDate : String → Option Int) (now : Int)
    (dw : Option Int) (l : List Scholarship) : List Scholarship :=
  match dw with
  | some days => l.filter (fun s => inDeadlineWindow parseDate now days s.deadline)
  | none => l

/-- Stage 5: `if (amountOrder) list.sort(...)` — stable comparator sort
by parsed amount (`av - bv` ascending, `bv - av` descending). -/
def amountSortStage (ao : Option Bool) (l : List Scholarship) : List Scholarship :=
  match ao with
  | some asc =>
    jsSortByQ (fun a b =>
      if asc then parseAmount a.amount - parseAmount b.amount
      else parseAmount b.amount - parseAmount a.amount) l
  | none => l

/-- Shallow embedding of the `filtered` memo of
`ScholarshipsTrackerSection.tsx`: successive narrowing by query,
category, eligibility and deadline window, then an optional stable sort
by parsed amount (the source rebinds one `list` variable through the
same five steps). -/
def filteredScholarships (parseDate : String → Option Int) (now : Int)
    (c : Criteria) (list : List Scholarship) : List Scholarship :=
  amountSortStage c.amountOrder
    (deadlineStage parseDate now c.deadlineWindow
      (eligibilityStage c.eligibility
        (categoryStage c.category
          (queryStage c.query list))))

/-! ## Tracker state (`handleSaveToggle` etc.) -/

inductive Status where
  | planning
  | in_progress
  | submitted
  | awarded
  | rejected
deriving DecidableEq, Repr

/-- A per-scholarship tracker record. `savedAt` is the (modelled)
timestamp of `new Date().toISOString()`. -/
structure TrackedItem where
  id : String
  status : Status
  reminderDate : Option Int
  checklist : List (String × Bool)
  savedAt : Int
deriving DecidableEq, Repr

/-- The fixed `DEFAULT_DOCS` checklist seed. -/
def DEFAULT_DOCS : List String :=
  ["Aadhaar Card", "Income Certificate",
   "Caste/Category Certificate (if applicable)", "Previous Marksheet",
   "Bonafide Student Certificate", "Bank Passbook"]

/-- The component state touched by `handleSaveToggle`: the saved-id set
(insertion-ordered, as a JS `Set`) and the tracked-item map (a JS
object keyed by id). -/
structure TrackerState where
  savedIds : List String
  tracked : List (String × TrackedItem)
deriving Repr

/-- The seeded `TrackedItem` for a first save: status `planning`, a
suggested reminder, an all-false checklist built from the item's
documents (or `DEFAULT_DOCS` when absent/empty). -/
def seedTracked (parseDate : String → Option Int) (tz now : Int)
    (s : Scholarship) : TrackedItem :=
  let docs := match s.documents with
    | some ds => if ds.length > 0 then ds else DEFAULT_DOCS
    | none => DEFAULT_DOCS
  { id := s.id
    status := .planning
    reminderDate := suggestReminder parseDate tz now s.deadline
    checklist := docs.map (fun d => (d, false))
    savedAt := now }

/-- Shallow embedding of `handleSaveToggle`: an already-saved id is
removed from the saved set (the tracked map untouched); an unsaved id
is added, and a tracked entry is seeded only when none exists yet
(`if (tprev[s.id]) return tprev`). -/
def handleSaveToggle (parseDate : String → Option Int) (tz now : Int)
    (s : Scholarship) (st : TrackerState) : TrackerState :=
  if st.savedIds.contains s.id then
    { st with savedIds := st.savedIds.filter (fun i => i ≠ s.id) }
  else
    let tracked' :=
      if (st.tracked.lookup s.id).isSome then st.tracked
      else (s.id, seedTracked parseDate tz now s) :: st.tracked
    { savedIds := st.savedIds ++ [s.id], tracked := tracked' }

/-! ## Course filtering and sorting (`filteredCourses` in
`CareerRecommendationsSection.tsx`) -/

/-- Course record; `relevance`/`popularity` are optional numbers
(`?? 0` fallback at the comparator), `salaryRange` an optional
free-text range. -/
structure Course where
  title : String
  stream : String
  description : String
  level : String
  relevance : Option ℚ
  popularity : Option ℚ
  salaryRange : Option String
deriving DecidableEq, Repr

/-- Signed lexicographic comparison of character lists by code point. -/
def lexCmpChars : List Char → List Char → Int
  | [], [] => 0
  | [], _ :: _ => -1
  | _ :: _, [] => 1
  | a :: as, b :: bs =>
    if a.toNat < b.toNat then -1
    else if b.toNat < a.toNat then 1
    else lexCmpChars as bs

/-- Signed lexicographic comparison of natural-number lists. -/
def lexCmpNats : List Nat → List Nat → Int
  | [], [] => 0
  | [], _ :: _ => -1
  | _ :: _, [] => 1
  | a :: as, b :: bs =>
    if a < b then -1
    else if b < a then 1
    else lexCmpNats as bs

/-- Model of `String.prototype.localeCompare` under the default `en`
collation, for ASCII strings: the primary comparison is
case-insensitive (code points after lowercasing); equal-primary strings
are tie-broken with lowercase ordered before uppercase. -/
def localeCompare (a b : String) : Int :=
  let p := lexCmpChars (strToLower a).data (strToLower b).data
  if p ≠ 0 then p
  else lexCmpNats (a.data.map (fun c => if c.isUpper then 1 else 0))
    (b.data.map (fun c => if c.isUpper then 1 else 0))

/-- The inner `parse` of `withSalarySort`: keep `[0-9-–]`, split on the
dashes, map `Number` (the parts are pure digit strings, the empty
string mapping to 0), then `match[1] || match[0] || 0`. -/
def parseSalaryUpper (o : Option String) : ℚ :=
  match o with
  | none => 0
  | some s =>
    let kept := s.data.filter (fun c => c.isDigit || c = '-' || c = '–')
    let parts := kept.splitOnP (fun c => c = '-' || c = '–')
    let nums : List ℚ := parts.map (fun p => (natOfDigits p : ℚ))
    let v1 := (nums.get? 1).getD 0
    if v1 ≠ 0 then v1 else (nums.get? 0).getD 0

/-- The sort keys offered by the UI. -/
inductive CourseSortKey where
  | relevance
  | popularity
  | salary
  | alphabetical
deriving DecidableEq, Repr

/-- The comparator of the `sorted` step of `filteredCourses`, with the
`?? 0` fallbacks for missing numeric fields. -/
def courseCmp (key : CourseSortKey) (a b : Course) : ℚ :=
  match key with
  | .relevance => b.relevance.getD 0 - a.relevance.getD 0
  | .popularity => b.popularity.getD 0 - a.popularity.getD 0
  | .salary => parseSalaryUpper b.salaryRange - parseSalaryUpper a.salaryRange
  | .alphabetical => (localeCompare a.title b.title : ℚ)

/-- Shallow embedding of the `filteredCourses` memo: level filter
(`"10+2"` matches nothing; otherwise equality on `level`, with the
redundant Undergraduate disjunct), case-insensitive text search over
title/stream/description, then the stable comparator sort. -/
def filteredCourses (level search : String) (key : CourseSortKey)
    (courses : List Course) : List Course :=
  let byLevel :=
    if level = "all" then courses
    else courses.filter (fun c =>
      if level = "10+2" then false
      else c.level = level || (level = "Undergraduate" && c.level = "Undergraduate"))
  let bySearch :=
    if search ≠ "" then
      byLevel.filter (fun c =>
        strIncludes (strToLower c.title) (strToLower search) ||
        strIncludes (strToLower c.stream) (strToLower search) ||
        strIncludes (strToLower c.description) (strToLower search))
    else byLevel
  jsSortByQ (courseCmp key) bySearch

/-! ## Theorems -/

/-- Characters of a single-character replacement output: each comes
from the replacement text or is an untouched character of the input. -/
theorem mem_replaceChar {x c : Char} {repl s : List Char}
    (hx : x ∈ replaceChar c repl s) : x ∈ repl ∨ (x ∈ s ∧ x ≠ c) := by
  induction s with
  | nil => simp [replaceChar] at hx
  | cons a t ih =>
    rw [replaceChar, List.map_cons, List.flatten_cons] at hx
    rcases List.mem_append.mp hx with h | h
    · by_cases hac : a = c
      · rw [if_pos hac] at h
        exact Or.inl h
      · rw [if_neg hac] at h
        have hxa : x = a := List.mem_singleton.mp h
        subst hxa
        exact Or.inr ⟨List.mem_cons_self _ _, hac⟩
    · rcases ih h with h' | ⟨h1, h2⟩
      · exact Or.inl h'
      · exact Or.inr ⟨List.mem_cons_of_mem a h1, h2⟩

/-- C10: for every input string, `escapeHtml` produces a string with no
literal `<`, `>` or `"` character, and each of `&`, `<`, `>`, `"` is
rewritten to its HTML entity, so interpolated college names, cities and
states cannot introduce tags or break out of attributes. -/
theorem escapeHtml_no_specials (s : String) :
    ((escapeHtml s).data.all fun c => c != '<' && c != '>' && c != '"') = true ∧
    escapeHtml "&" = "&amp;" ∧ escapeHtml "<" = "&lt;" ∧
    escapeHtml ">" = "&gt;" ∧ escapeHtml "\"" = "&quot;" := by
  refine ⟨?_, by decide, by decide, by decide, by decide⟩
  rw [List.all_eq_true]
  intro c hc
  have hq : ∀ x ∈ "&quot;".data, (x != '<' && x != '>' && x != '"') = true := by decide
  have hg : ∀ x ∈ "&gt;".data, (x != '<' && x != '>' && x != '"') = true := by decide
  have hl : ∀ x ∈ "&lt;".data, (x != '<' && x != '>' && x != '"') = true := by decide
  rcases mem_replaceChar hc with h | ⟨h, h3⟩
  · exact hq c h
  rcases mem_replaceChar h with h | ⟨h, h2⟩
  · exact hg c h
  rcases mem_replaceChar h with h | ⟨h, h1⟩
  · exact hl c h
  simp [h1, h2, h3]

/-- C4: `handleRetake`, from any prior state (hence any prior phase),
empties the answer map, resets the cursor to 0, restores the timer to
the configured duration, discards the stored result and returns to the
`quiz` phase. -/
theorem handleRetake_resets (durationSec : Nat) (s : QuizState) :
    (handleRetake durationSec s).answers = [] ∧
    (handleRetake durationSec s).index = 0 ∧
    (handleRetake durationSec s).remaining = durationSec ∧
    (handleRetake durationSec s).results = none ∧
    (handleRetake durationSec s).phase = Phase.quiz :=
  ⟨rfl, rfl, rfl, rfl, rfl⟩

/-- C5: `handleSubmit` never touches the answer map; a rejected scoring
call puts the machine back in `review` and raises the error toast while
leaving the stored result as it was, and a resolved call stores the
result and moves to `result`. -/
theorem handleSubmit_outcomes (s : QuizState) (out : Except String QuizResults) :
    (handleSubmit s out).1.answers = s.answers ∧
    (∀ e, out = .error e →
      (handleSubmit s out).1.phase = Phase.review ∧
      (handleSubmit s out).2 = true ∧
      (handleSubmit s out).1.results = s.results) ∧
    (∀ r, out = .ok r →
      (handleSubmit s out).1.phase = Phase.result ∧
      (handleSubmit s out).1.results = some r ∧
      (handleSubmit s out).2 = false) := by
  cases out <;> simp [handleSubmit]

/-- Witness for C5 at a concrete state and both concrete outcomes. -/
theorem handleSubmit_outcomes_witness :
    (handleSubmit ⟨Phase.review, 1, [("q1", "a")], 30, none⟩
        (Except.error "network down")).1.phase = Phase.review ∧
    (handleSubmit ⟨Phase.review, 1, [("q1", "a")], 30, none⟩
        (Except.ok ⟨⟨0, 0, 0, 0⟩, "", []⟩)).1.phase = Phase.result :=
  ⟨((handleSubmit_outcomes ⟨Phase.review, 1, [("q1", "a")], 30, none⟩
      (Except.error "network down")).2.1 "network down" rfl).1,
   ((handleSubmit_outcomes ⟨Phase.review, 1, [("q1", "a")], 30, none⟩
      (Except.ok ⟨⟨0, 0, 0, 0⟩, "", []⟩)).2.2 ⟨⟨0, 0, 0, 0⟩, "", []⟩ rfl).1⟩

/-- C3: amount parsing maps `"₹50,000"` to 50000, `"50k"` to 50000 and
`"abc"` to 0; numbers pass through unchanged; and on the stripped,
lowercased string a trailing `k` multiplies the parsed value by 1000
while an unparseable value yields 0. -/
theorem parseAmount_spec :
    parseAmount (.str "₹50,000") = 50000 ∧
    parseAmount (.str "50k") = 50000 ∧
    parseAmount (.str "abc") = 0 ∧
    (∀ q : ℚ, parseAmount (.num q) = q) ∧
    (∀ v : String,
      endsWithK (cleanAmount v) = true →
        (∀ n, jsParseFloat ⟨(cleanAmount v).data.dropLast⟩ = some n →
          parseAmount (.str v) = n * 1000) ∧
        (jsParseFloat ⟨(cleanAmount v).data.dropLast⟩ = none →
          parseAmount (.str v) = 0)) ∧
    (∀ v : String, ¬endsWithK (cleanAmount v) = true →
      jsParseFloat (cleanAmount v) = none → parseAmount (.str v) = 0) := by
  refine ⟨?_, ?_, ?_, fun q => rfl, ?_, ?_⟩
  · simp +decide [parseAmount, cleanAmount, jsParseFloat, endsWithK,
      isStrippedAmountChar, natOfDigits]
  · simp +decide [parseAmount, cleanAmount, jsParseFloat, endsWithK,
      isStrippedAmountChar, natOfDigits]
    norm_num
  · simp +decide [parseAmount, cleanAmount, jsParseFloat, endsWithK,
      isStrippedAmountChar, natOfDigits]
  · intro v hk
    constructor
    · intro n hn
      rw [parseAmount, if_pos hk, hn]
    · intro hn
      rw [parseAmount, if_pos hk, hn]
  · intro v hk hn
    rw [parseAmount, if_neg hk, hn]

/-- Witness for C3's conditional clauses at the concrete inputs `"2k"`
(parsed, scaled by 1000), `"xk"` (trailing `k` but unparseable) and
`"abc"` (no `k`, unparseable). -/
theorem parseAmount_spec_witness :
    parseAmount (.str "2k") = 2000 ∧
    parseAmount (.str "xk") = 0 ∧ parseAmount (.str "abc") = 0 := by
  refine ⟨?_, ?_, ?_⟩
  · have hp : jsParseFloat ⟨(cleanAmount "2k").data.dropLast⟩ = some 2 := by
      simp +decide [jsParseFloat, cleanAmount, isStrippedAmountChar, natOfDigits]
    have h := (parseAmount_spec.2.2.2.2.1 "2k" (by decide)).1 2 hp
    rw [h]; norm_num
  · exact (parseAmount_spec.2.2.2.2.1 "xk" (by decide)).2 (by decide)
  · exact parseAmount_spec.2.2.2.2.2 "abc" (by decide) (by decide)

/-- C2: the deadline-window filter keeps a record exactly when its
deadline is present, parses, and `ceil((deadline - now) / day)` lies in
`[0, N]`; absent or unparseable deadlines are always excluded; a
deadline a full day or more in the past (in particular, yesterday) is
excluded from every window; and a deadline within the current day
(at or before `now`) is included in every window `N ≥ 0`. -/
theorem inDeadlineWindow_spec (parseDate : String → Option Int) (now days : Int) :
    (∀ dl, inDeadlineWindow parseDate now days dl = true ↔
      ∃ ds d, dl = some ds ∧ ds ≠ "" ∧ parseDate ds = some d ∧
        0 ≤ ceilDiv (d - now) msPerDay ∧ ceilDiv (d - now) msPerDay ≤ days) ∧
    inDeadlineWindow parseDate now days none = false ∧
    (∀ ds, parseDate ds = none → inDeadlineWindow parseDate now days (some ds) = false) ∧
    (∀ ds d, parseDate ds = some d → d ≤ now - msPerDay →
      inDeadlineWindow parseDate now days (some ds) = false) ∧
    (∀ ds d, ds ≠ "" → parseDate ds = some d → now - msPerDay < d → d ≤ now →
      0 ≤ days → inDeadlineWindow parseDate now days (some ds) = true) := by
  refine ⟨?_, rfl, ?_, ?_, ?_⟩
  · intro dl
    cases dl with
    | none => simp [inDeadlineWindow]
    | some ds =>
      by_cases hds : ds = ""
      · subst hds
        simp [inDeadlineWindow]
      · cases hp : parseDate ds with
        | none =>
          simp only [inDeadlineWindow, if_neg hds, hp]
          constructor
          · intro h; cases h
          · rintro ⟨ds', d', hds', _, hp', _⟩
            rw [Option.some_inj] at hds'
            subst hds'
            rw [hp'] at hp
            cases hp
        | some d =>
          simp only [inDeadlineWindow, if_neg hds, hp, decide_eq_true_eq]
          constructor
          · intro h
            exact ⟨ds, d, rfl, hds, hp, h.1, h.2⟩
          · rintro ⟨ds', d', hds', _, hp', h0, h1⟩
            rw [Option.some_inj] at hds'
            subst hds'
            rw [hp'] at hp
            rw [Option.some_inj] at hp
            subst hp
            exact ⟨h0, h1⟩
  · intro ds hp
    by_cases hds : ds = ""
    · subst hds
      simp [inDeadlineWindow]
    · simp [inDeadlineWindow, if_neg hds, hp]
  · intro ds d hp hpast
    by_cases hds : ds = ""
    · subst hds
      simp [inDeadlineWindow]
    · simp only [inDeadlineWindow, if_neg hds, hp]
      rw [decide_eq_false_iff_not]
      intro hcon
      have h0 := hcon.1
      simp only [ceilDiv, msPerDay] at h0 hpast
      omega
  · intro ds d hds hp h1 h2 hdays
    simp only [inDeadlineWindow, if_neg hds, hp]
    rw [decide_eq_true_eq]
    have hdiff : ceilDiv (d - now) msPerDay = 0 := by
      simp only [msPerDay] at h1 h2
      simp only [ceilDiv, msPerDay]
      omega
    rw [hdiff]
    exact ⟨le_refl 0, hdays⟩

/-- Witness for C2 at concrete data: `now` = 0, a deadline at 11:00 the
same day is in the 7-day window, yesterday's deadline is not. -/
theorem inDeadlineWindow_spec_witness :
    inDeadlineWindow (fun s => if s = "today" then some (-39600000)
      else if s = "yesterday" then some (-86400000) else none) 0 7 (some "today") = true ∧
    inDeadlineWindow (fun s => if s = "today" then some (-39600000)
      else if s = "yesterday" then some (-86400000) else none) 0 7 (some "yesterday") = false :=
  ⟨(inDeadlineWindow_spec _ 0 7).2.2.2.2 "today" (-39600000) (by decide)
      (by decide) (by decide) (by decide) (by decide),
   (inDeadlineWindow_spec _ 0 7).2.2.2.1 "yesterday" (-86400000) (by decide)
      (by decide)⟩

/-- C7: `suggestReminder` yields nothing for an absent (or empty, or
unparseable) deadline; otherwise it proposes the deadline minus 5 days,
except that a target already in the past is replaced by 09:00 local
time on the day after `now`. -/
theorem suggestReminder_spec (parseDate : String → Option Int) (tz now : Int) :
    suggestReminder parseDate tz now none = none ∧
    suggestReminder parseDate tz now (some "") = none ∧
    (∀ ds, ds ≠ "" → parseDate ds = none →
      suggestReminder parseDate tz now (some ds) = none) ∧
    (∀ ds d, ds ≠ "" → parseDate ds = some d → now ≤ d - 5 * msPerDay →
      suggestReminder parseDate tz now (some ds) = some (d - 5 * msPerDay)) ∧
    (∀ ds d, ds ≠ "" → parseDate ds = some d → d - 5 * msPerDay < now →
      suggestReminder parseDate tz now (some ds) = some (tomorrowAt9 tz now)) := by
  refine ⟨rfl, by simp [suggestReminder], ?_, ?_, ?_⟩
  · intro ds hds hp
    simp [suggestReminder, if_neg hds, hp]
  · intro ds d hds hp hfut
    simp only [suggestReminder, if_neg hds, hp]
    rw [if_neg (not_lt.mpr hfut)]
  · intro ds d hds hp hpast
    simp only [suggestReminder, if_neg hds, hp]
    rw [if_pos hpast]

/-- Witness for C7 at concrete data: a deadline 20 days out gives the
minus-5-days reminder; a deadline 2 days out falls back to tomorrow
09:00 local time (UTC offset 0, `now` = 0). -/
theorem suggestReminder_spec_witness :
    suggestReminder (fun _ => some (20 * 86400000)) 0 0 (some "far") =
      some (20 * 86400000 - 5 * msPerDay) ∧
    suggestReminder (fun _ => some (2 * 86400000)) 0 0 (some "near") =
      some (tomorrowAt9 0 0) :=
  ⟨(suggestReminder_spec (fun _ => some (20 * 86400000)) 0 0).2.2.2.1 "far"
      (20 * 86400000) (by decide) rfl (by decide),
   (suggestReminder_spec (fun _ => some (2 * 86400000)) 0 0).2.2.2.2 "near"
      (2 * 86400000) (by decide) rfl (by decide)⟩

/-- Projecting the document names back out of a freshly seeded
all-false checklist returns the document list. -/
theorem map_fst_pair_false (l : List String) :
    (l.map (fun d => (d, false))).map Prod.fst = l := by
  induction l with
  | nil => rfl
  | cons a t ih => simp [ih]

/-- C6: unsaving a saved item removes its id from the saved set but
leaves the tracked map (hence checklist, status, reminder, savedAt)
untouched; saving an unsaved item adds the id and seeds a tracked entry
(status `planning`, all-false checklist from the item's documents or
the default list) only when no entry exists; re-saving after an unsave
therefore restores the prior tracked record exactly. -/
theorem handleSaveToggle_spec (parseDate : String → Option Int) (tz now : Int)
    (s : Scholarship) (st : TrackerState) :
    (st.savedIds.contains s.id = true →
      (handleSaveToggle parseDate tz now s st).tracked = st.tracked ∧
      (handleSaveToggle parseDate tz now s st).savedIds.contains s.id = false) ∧
    (st.savedIds.contains s.id = false →
      (handleSaveToggle parseDate tz now s st).savedIds.contains s.id = true ∧
      (∀ t, st.tracked.lookup s.id = some t →
        (handleSaveToggle parseDate tz now s st).tracked = st.tracked) ∧
      (st.tracked.lookup s.id = none →
        (handleSaveToggle parseDate tz now s st).tracked.lookup s.id =
          some (seedTracked parseDate tz now s) ∧
        (seedTracked parseDate tz now s).status = Status.planning ∧
        (∀ p ∈ (seedTracked parseDate tz now s).checklist, p.2 = false) ∧
        (seedTracked parseDate tz now s).checklist.map Prod.fst =
          (match s.documents with
           | some ds => if ds.length > 0 then ds else DEFAULT_DOCS
           | none => DEFAULT_DOCS))) ∧
    (∀ t, st.savedIds.contains s.id = true → st.tracked.lookup s.id = some t →
      (handleSaveToggle parseDate tz now s
        (handleSaveToggle parseDate tz now s st)).tracked.lookup s.id = some t ∧
      (handleSaveToggle parseDate tz now s
        (handleSaveToggle parseDate tz now s st)).savedIds.contains s.id = true) := by
  have hfilter : ∀ l : List String,
      (l.filter (fun i => i ≠ s.id)).contains s.id = false := by
    intro l
    rw [List.contains_eq_any_beq]
    simp only [List.any_eq_false]
    intro x hx
    rcases List.mem_filter.mp hx with ⟨_, hne⟩
    simp only [decide_eq_true_eq] at hne
    intro hbeq
    exact hne (beq_iff_eq.mp hbeq).symm
  have happend : ∀ l : List String, (l ++ [s.id]).contains s.id = true := by
    intro l
    rw [List.contains_eq_any_beq, List.any_eq_true]
    exact ⟨s.id, List.mem_append_right l (List.mem_singleton.mpr rfl), beq_self_eq_true s.id⟩
  refine ⟨?_, ?_, ?_⟩
  · intro hsaved
    rw [handleSaveToggle, if_pos hsaved]
    exact ⟨rfl, hfilter st.savedIds⟩
  · intro hunsaved
    rw [handleSaveToggle, if_neg (by rw [hunsaved]; exact Bool.false_ne_true)]
    refine ⟨happend st.savedIds, ?_, ?_⟩
    · intro t ht
      simp [ht]
    · intro hnone
      rw [hnone]
      refine ⟨?_, rfl, ?_, ?_⟩
      · simp [List.lookup]
      · intro p hp
        rcases List.mem_map.mp hp with ⟨d, _, rfl⟩
        rfl
      · cases hdoc : s.documents with
        | none =>
          simp only [seedTracked, hdoc]
          exact map_fst_pair_false _
        | some ds =>
          by_cases hlen : ds.length > 0 <;>
            simp only [seedTracked, hdoc, if_pos, if_neg, hlen, if_true, if_false,
              reduceIte] <;>
            exact map_fst_pair_false _
  · intro t hsaved ht
    have h1 : (handleSaveToggle parseDate tz now s st).tracked = st.tracked := by
      rw [handleSaveToggle, if_pos hsaved]
    have h2 : (handleSaveToggle parseDate tz now s st).savedIds.contains s.id = false := by
      rw [handleSaveToggle, if_pos hsaved]
      exact hfilter st.savedIds
    rw [handleSaveToggle, if_neg (by rw [h2]; exact Bool.false_ne_true), h1, ht]
    constructor
    · simpa using ht
    · exact happend _

/-- Witness for C6: a concrete scholarship, saved then toggled twice,
keeps its tracked record. -/
theorem handleSaveToggle_spec_witness :
    (handleSaveToggle (fun _ => none) 0 0
      { id := "s1", name := "Merit", amount := .num 1000,
        eligibility := "All", deadline := none, category := "General",
        source := none, link := none, documents := none }
      (handleSaveToggle (fun _ => none) 0 0
        { id := "s1", name := "Merit", amount := .num 1000,
          eligibility := "All", deadline := none, category := "General",
          source := none, link := none, documents := none }
        { savedIds := ["s1"],
          tracked := [("s1",
            { id := "s1", status := Status.submitted, reminderDate := none,
              checklist := [("Aadhaar Card", true)], savedAt := 0 })] })).tracked.lookup
      "s1" = some
        { id := "s1", status := Status.submitted, reminderDate := none,
          checklist := [("Aadhaar Card", true)], savedAt := 0 } :=
  ((handleSaveToggle_spec (fun _ => none) 0 0
    { id := "s1", name := "Merit", amount := .num 1000,
      eligibility := "All", deadline := none, category := "General",
      source := none, link := none, documents := none }
    { savedIds := ["s1"],
      tracked := [("s1",
        { id := "s1", status := Status.submitted, reminderDate := none,
          checklist := [("Aadhaar Card", true)], savedAt := 0 })] }).2.2
    { id := "s1", status := Status.submitted, reminderDate := none,
      checklist := [("Aadhaar Card", true)], savedAt := 0 }
    (by decide) (by decide)).1

/-- C8: every record produced by the scholarship filter engine, under
any combination of query, category, eligibility, deadline-window and
sort criteria, is an element of the input catalog; and sanitization
drops exactly the falsy records and those without a truthy `id` or
`name`, so every sanitized record has a non-empty id and name (the
pipeline is total by construction — malformed records are excluded,
never thrown on). -/
theorem filteredScholarships_spec :
    (∀ (parseDate : String → Option Int) (now : Int) (c : Criteria)
      (list : List Scholarship) (x : Scholarship),
      x ∈ filteredScholarships parseDate now c list → x ∈ list) ∧
    (∀ (raws : List (Option RawScholarship)) (x : Scholarship),
      x ∈ sanitizeScholarships raws → x.id ≠ "" ∧ x.name ≠ "") ∧
    sanitizeOne none = none ∧
    (∀ r : RawScholarship, truthyStr r.id = false ∨ truthyStr r.name = false →
      sanitizeOne (some r) = none) := by
  refine ⟨?_, ?_, rfl, ?_⟩
  · intro parseDate now c list x hx
    rw [filteredScholarships] at hx
    have h5 : ∀ (ao : Option Bool) (l : List Scholarship) (y : Scholarship),
        y ∈ amountSortStage ao l → y ∈ l := by
      intro ao l y hy
      cases ao with
      | none => exact hy
      | some asc => exact ((List.perm_insertionSort _ _).mem_iff).mp hy
    have h4 : ∀ (dw : Option Int) (l : List Scholarship) (y : Scholarship),
        y ∈ deadlineStage parseDate now dw l → y ∈ l := by
      intro dw l y hy
      cases dw with
      | none => exact hy
      | some days => exact (List.mem_filter.mp hy).1
    have h3 : ∀ (e : Option String) (l : List Scholarship) (y : Scholarship),
        y ∈ eligibilityStage e l → y ∈ l := by
      intro e l y hy
      cases e with
      | none => exact hy
      | some el => exact (List.mem_filter.mp hy).1
    have h2 : ∀ (cat : Option String) (l : List Scholarship) (y : Scholarship),
        y ∈ categoryStage cat l → y ∈ l := by
      intro cat l y hy
      cases cat with
      | none => exact hy
      | some cv => exact (List.mem_filter.mp hy).1
    have h1 : ∀ (q : String) (l : List Scholarship) (y : Scholarship),
        y ∈ queryStage q l → y ∈ l := by
      intro q l y hy
      rw [queryStage] at hy
      by_cases hq : jsTrim q ≠ ""
      · rw [if_pos hq] at hy
        exact (List.mem_filter.mp hy).1
      · rwa [if_neg hq] at hy
    exact h1 _ _ _ (h2 _ _ _ (h3 _ _ _ (h4 _ _ _ (h5 _ _ _ hx))))
  · intro raws x hx
    rcases List.mem_filterMap.mp hx with ⟨a, _, ha⟩
    cases a with
    | none => simp [sanitizeOne] at ha
    | some r =>
      rw [sanitizeOne] at ha
      by_cases htr : truthyStr r.id = true ∧ truthyStr r.name = true
      · rw [if_pos htr] at ha
        rw [Option.some_inj] at ha
        subst ha
        constructor
        · cases hri : r.id with
          | none => rw [hri] at htr; simp [truthyStr] at htr
          | some i =>
            rw [hri] at htr
            have : i ≠ "" := by
              have := htr.1
              simpa [truthyStr] using this
            simpa [hri] using this
        · cases hrn : r.name with
          | none => rw [hrn] at htr; simp [truthyStr] at htr
          | some n =>
            rw [hrn] at htr
            have : n ≠ "" := by
              have := htr.2
              simpa [truthyStr] using this
            simpa [hrn] using this
      · rw [if_neg htr] at ha
        cases ha
  · intro r hr
    rw [sanitizeOne, if_neg]
    intro hcon
    rcases hr with h | h
    · rw [hcon.1] at h; cases h
    · rw [hcon.2] at h; cases h

/-- Witness for C8 at a concrete one-record catalog with no active
filters, and a concrete raw list with one well-formed and one
name-less record. -/
theorem filteredScholarships_spec_witness :
    ({ id := "s1", name := "Merit", amount := .num 1000,
       eligibility := "All", deadline := none, category := "General",
       source := none, link := none, documents := none } : Scholarship) ∈
      [{ id := "s1", name := "Merit", amount := .num 1000,
         eligibility := "All", deadline := none, category := "General",
         source := none, link := none, documents := none }] ∧
    sanitizeOne (some { id := some "x", name := none, amount := none,
                        eligibility := none, deadline := none, category := none,
                        source := none, link := none, documents := none }) = none :=
  ⟨filteredScholarships_spec.1 (fun _ => none) 0 ⟨"", none, none, none, none⟩
      _ _ (by decide),
   filteredScholarships_spec.2.2.2 _ (Or.inr rfl)⟩

/-- One scoring step preserves non-negativity of every bucket. -/
theorem bucketStep_nonneg (b : Buckets) (v : String)
    (hb : ∀ st, 0 ≤ b.score st) : ∀ st, 0 ≤ (bucketStep b v).score st := by
  have ha := hb .Arts
  have hs := hb .Science
  have hc := hb .Commerce
  have hv := hb .Vocational
  simp only [Buckets.score] at ha hs hc hv
  intro st
  unfold bucketStep
  split_ifs <;> cases st <;> simp [Buckets.score] <;> omega

/-- The whole scoring fold preserves non-negativity. -/
theorem foldl_bucketStep_nonneg (l : List String) (b : Buckets)
    (hb : ∀ st, 0 ≤ b.score st) : ∀ st, 0 ≤ (l.foldl bucketStep b).score st := by
  induction l generalizing b with
  | nil => exact hb
  | cons v t ih => exact ih _ (bucketStep_nonneg b v hb)

/-- Appending one answer value folds as one extra scoring step. -/
theorem computeBuckets_append (vs : List String) (v : String) :
    computeBuckets (vs ++ [v]) = bucketStep (computeBuckets vs) v := by
  unfold computeBuckets
  rw [List.foldl_append]
  rfl

/-- Scoring a run of all-science answers adds two per answer to the
Science bucket and touches nothing else. -/
theorem foldl_bucketStep_science (vs : List String) (b : Buckets)
    (h : ∀ v ∈ vs, hasScienceKeyword v = true) :
    vs.foldl bucketStep b = { b with science := b.science + 2 * vs.length } := by
  induction vs generalizing b with
  | nil => simp
  | cons v t ih =>
    have hv := h v (List.mem_cons_self _ _)
    rw [List.foldl_cons, ih _ (fun w hw => h w (List.mem_cons_of_mem _ hw))]
    simp only [bucketStep, hv, if_true, List.length_cons]
    congr 1
    push_cast
    ring

/-- When Science strictly dominates every other bucket, the stable
descending stream sort puts Science first. -/
theorem sortedStreams_head_science (bk : Buckets)
    (hmax : ∀ st, st ≠ StreamName.Science → bk.score st < bk.score .Science) :
    (sortedStreams bk).head? = some StreamName.Science := by
  have hperm : (sortedStreams bk).Perm Buckets.keys :=
    List.perm_insertionSort _ _
  haveI : IsTotal StreamName (fun a b => streamCmp bk a b ≤ 0) := ⟨by
    intro a b
    simp only [streamCmp]
    omega⟩
  haveI : IsTrans StreamName (fun a b => streamCmp bk a b ≤ 0) := ⟨by
    intro a b c hab hbc
    simp only [streamCmp] at hab hbc ⊢
    omega⟩
  have hsorted : List.Sorted (fun a b => streamCmp bk a b ≤ 0) (sortedStreams bk) :=
    List.sorted_insertionSort _ _
  cases hs : sortedStreams bk with
  | nil =>
    exfalso
    have := hperm.length_eq
    rw [hs] at this
    simp [Buckets.keys] at this
  | cons y ys =>
    rw [hs] at hsorted hperm
    have hy : ∀ z ∈ ys, streamCmp bk y z ≤ 0 := (List.pairwise_cons.mp hsorted).1
    by_cases hyS : y = StreamName.Science
    · rw [hyS]
      rfl
    · exfalso
      have hSmem : StreamName.Science ∈ y :: ys := by
        rw [hperm.mem_iff]
        simp [Buckets.keys]
      rcases List.mem_cons.mp hSmem with hSy | hSys
      · exact hyS hSy.symm
      · have h1 := hy _ hSys
        have h2 := hmax y hyS
        simp only [streamCmp] at h1
        omega

/-- C1 counterexample: on the empty `AnswerMap` every answer vacuously
contains a science keyword and all buckets tie at 0, yet the stable
sort leaves the declaration order `[Arts, Science, Commerce,
Vocational]` intact, so the top recommended stream is Arts, not
Science — the claim's final conjunct fails for the empty map. -/
theorem mockEvaluate_empty_counterexample :
    (∀ v ∈ answerValues ([] : AnswerMap), hasScienceKeyword v = true) ∧
    (mockEvaluate ([] : AnswerMap)).recommended.head? = some StreamName.Arts ∧
    ¬(mockEvaluate ([] : AnswerMap)).recommended.head? = some StreamName.Science := by
  refine ⟨?_, by decide, by decide⟩
  intro v hv
  simp [answerValues] at hv

/-- C1 (amended with non-emptiness): for every `AnswerMap` the scorer
returns the four fixed stream keys with non-negative scores; a
science-keyword answer adds 2 to the Science bucket and an unmatched
answer adds 1 to Vocational; the recommendation list is the first two
entries of the stable descending sort of the four buckets; and for a
NON-EMPTY map whose answers all carry science keywords, Science weakly
dominates every bucket and is the top recommended stream. -/
theorem mockEvaluate_spec (answers : AnswerMap) :
    (mockEvaluate answers).streamScores.entries.map Prod.fst = Buckets.keys ∧
    (∀ st, 0 ≤ (mockEvaluate answers).streamScores.score st) ∧
    (∀ vs v, hasScienceKeyword v = true →
      computeBuckets (vs ++ [v]) =
        { computeBuckets vs with science := (computeBuckets vs).science + 2 }) ∧
    (∀ vs v, hasScienceKeyword v = false → hasCommerceKeyword v = false →
      hasArtsKeyword v = false →
      computeBuckets (vs ++ [v]) =
        { computeBuckets vs with
            vocational := (computeBuckets vs).vocational + 1 }) ∧
    (mockEvaluate answers).recommended =
      (sortedStreams (mockEvaluate answers).streamScores).take 2 ∧
    (sortedStreams (mockEvaluate answers).streamScores).Perm Buckets.keys ∧
    (answers ≠ [] → (∀ v ∈ answerValues answers, hasScienceKeyword v = true) →
      (∀ st, (mockEvaluate answers).streamScores.score st ≤
        (mockEvaluate answers).streamScores.score StreamName.Science) ∧
      (mockEvaluate answers).recommended.head? = some StreamName.Science) := by
  refine ⟨rfl, ?_, ?_, ?_, rfl, List.perm_insertionSort _ _, ?_⟩
  · intro st
    exact foldl_bucketStep_nonneg _ _ (by intro st'; cases st' <;> simp [Buckets.score]) st
  · intro vs v hv
    rw [computeBuckets_append]
    simp only [bucketStep, hv, if_true]
  · intro vs v h1 h2 h3
    rw [computeBuckets_append]
    simp only [bucketStep, h1, h2, h3, if_false, Bool.false_eq_true]
  · intro hne hsci
    have hn : 1 ≤ answers.length := by
      cases answers with
      | nil => exact absurd rfl hne
      | cons a t => simp
    have hlen : (answerValues answers).length = answers.length := List.length_map _ _
    have hb : computeBuckets (answerValues answers) =
        { arts := 0, science := 0 + 2 * (answerValues answers).length,
          commerce := 0, vocational := 0 } := by
      unfold computeBuckets
      exact foldl_bucketStep_science _ ⟨0, 0, 0, 0⟩ hsci
    have hscores : (mockEvaluate answers).streamScores =
        { arts := 0, science := 0 + 2 * (answerValues answers).length,
          commerce := 0, vocational := 0 } := hb
    constructor
    · intro st
      rw [hscores]
      cases st <;> simp only [Buckets.score] <;> omega
    · have hhead : (sortedStreams (mockEvaluate answers).streamScores).head? =
          some StreamName.Science := by
        apply sortedStreams_head_science
        intro st hst
        rw [hscores]
        cases st with
        | Science => exact absurd rfl hst
        | Arts => simp only [Buckets.score]; omega
        | Commerce => simp only [Buckets.score]; omega
        | Vocational => simp only [Buckets.score]; omega
      have hrec : (mockEvaluate answers).recommended =
          (sortedStreams (mockEvaluate answers).streamScores).take 2 := rfl
      rw [hrec]
      cases hs : sortedStreams (mockEvaluate answers).streamScores with
      | nil => rw [hs] at hhead; cases hhead
      | cons y ys =>
        rw [hs] at hhead
        simp only [List.head?] at hhead
        cases ys <;> simpa [List.take] using hhead

/-- Witness for C1's amended theorem at a concrete single-answer map
whose value contains "math". -/
theorem mockEvaluate_spec_witness :
    (mockEvaluate [("q1", "I like math")]).recommended.head? =
      some StreamName.Science :=
  ((mockEvaluate_spec [("q1", "I like math")]).2.2.2.2.2.2
    (by decide) (by decide)).2

/-- Reversing the arguments of the code-point comparison flips its sign. -/
theorem lexCmpChars_swap (l1 l2 : List Char) :
    lexCmpChars l2 l1 = -lexCmpChars l1 l2 := by
  induction l1 generalizing l2 with
  | nil =>
    cases l2 with
    | nil => rfl
    | cons b bs => rfl
  | cons a as ih =>
    cases l2 with
    | nil => rfl
    | cons b bs =>
      rw [lexCmpChars, lexCmpChars]
      split_ifs <;> first | omega | exact ih bs

/-- Reversing the arguments of the case-rank comparison flips its sign. -/
theorem lexCmpNats_swap (l1 l2 : List Nat) :
    lexCmpNats l2 l1 = -lexCmpNats l1 l2 := by
  induction l1 generalizing l2 with
  | nil =>
    cases l2 with
    | nil => rfl
    | cons b bs => rfl
  | cons a as ih =>
    cases l2 with
    | nil => rfl
    | cons b bs =>
      rw [lexCmpNats, lexCmpNats]
      split_ifs <;> first | omega | exact ih bs

/-- The modelled locale comparison is antisymmetric in sign. -/
theorem localeCompare_swap (a b : String) :
    localeCompare b a = -localeCompare a b := by
  simp only [localeCompare]
  rw [lexCmpChars_swap (strToLower a).data (strToLower b).data]
  by_cases hp : lexCmpChars (strToLower a).data (strToLower b).data = 0
  · rw [hp]
    norm_num
    exact lexCmpNats_swap _ _
  · rw [if_pos (neg_ne_zero.mpr hp), if_pos hp]

/-- Every course comparator is antisymmetric in sign. -/
theorem courseCmp_swap (key : CourseSortKey) (a b : Course) :
    courseCmp key b a = -courseCmp key a b := by
  cases key with
  | relevance => simp [courseCmp]
  | popularity => simp [courseCmp]
  | salary => simp [courseCmp]
  | alphabetical =>
    simp only [courseCmp]
    rw [localeCompare_swap]
    push_cast
    ring

/-- Stable insertion into a tie-ordered pair list: inserting an element
whose index precedes everything present preserves the invariant that
tied elements appear in index order. -/
theorem orderedInsert_stable {α : Type} (cmp : α → α → ℚ)
    (hswap : ∀ a b, cmp b a = -cmp a b)
    (x : Nat × α) (m : List (Nat × α))
    (hm : m.Pairwise (fun p q => cmp p.2 q.2 = 0 → p.1 < q.1))
    (hx : ∀ y ∈ m, x.1 < y.1) :
    (List.orderedInsert (fun p q => cmp p.2 q.2 ≤ 0) x m).Pairwise
      (fun p q => cmp p.2 q.2 = 0 → p.1 < q.1) := by
  induction m with
  | nil => simp
  | cons y ys ih =>
    rw [List.orderedInsert]
    by_cases hle : cmp x.2 y.2 ≤ 0
    · rw [if_pos hle]
      refine List.pairwise_cons.mpr ⟨?_, hm⟩
      intro z hz _
      exact hx z hz
    · rw [if_neg hle]
      rcases List.pairwise_cons.mp hm with ⟨hy, hys⟩
      refine List.pairwise_cons.mpr
        ⟨?_, ih hys (fun z hz => hx z (List.mem_cons_of_mem _ hz))⟩
      intro z hz
      rcases (List.mem_orderedInsert _).mp hz with hzx | hz'
      · subst hzx
        intro htie
        exfalso
        apply hle
        have hs := hswap z.2 y.2
        rw [htie] at hs
        have h0 : cmp z.2 y.2 = 0 := by linarith
        exact le_of_eq h0
      · exact hy z hz'

/-- The JS stable sort, run on index-decorated input with strictly
increasing indices, keeps tied elements in index (original) order. -/
theorem insertionSort_stable {α : Type} (cmp : α → α → ℚ)
    (hswap : ∀ a b, cmp b a = -cmp a b) (m : List (Nat × α))
    (hm : m.Pairwise (fun p q => p.1 < q.1)) :
    (List.insertionSort (fun p q => cmp p.2 q.2 ≤ 0) m).Pairwise
      (fun p q => cmp p.2 q.2 = 0 → p.1 < q.1) := by
  induction m with
  | nil => simp
  | cons x t ih =>
    rw [List.insertionSort]
    rcases List.pairwise_cons.mp hm with ⟨hx, ht⟩
    refine orderedInsert_stable cmp hswap x _ (ih ht) ?_
    intro y hy
    exact hx y (((List.perm_insertionSort _ t).mem_iff).mp hy)

/-- A course record carrying only a title, as in the alphabetical-sort
test vector. -/
def courseWithTitle (t : String) : Course :=
  { title := t, stream := "", description := "", level := "",
    relevance := none, popularity := none, salaryRange := none }

/-- C9: the alphabetical key sorts `["banana", "Apple"]` to
`["Apple", "banana"]` (case-insensitive primary comparison); every
comparator is total; the sort is stable (on index-decorated input, tied
elements stay in index order); and the numeric keys (relevance,
popularity) treat a missing field exactly as the value 0. -/
theorem filteredCourses_sort_spec :
    (filteredCourses "all" "" .alphabetical
      [courseWithTitle "banana", courseWithTitle "Apple"]).map Course.title =
      ["Apple", "banana"] ∧
    (∀ (key : CourseSortKey) (a b : Course),
      courseCmp key a b ≤ 0 ∨ courseCmp key b a ≤ 0) ∧
    (∀ (key : CourseSortKey) (l : List Course),
      (List.insertionSort (fun p q : Nat × Course => courseCmp key p.2 q.2 ≤ 0)
        l.enum).Pairwise (fun p q => courseCmp key p.2 q.2 = 0 → p.1 < q.1)) ∧
    (∀ a b : Course, a.relevance = none →
      courseCmp .relevance a b =
        courseCmp .relevance { a with relevance := some 0 } b) ∧
    (∀ a b : Course, b.relevance = none →
      courseCmp .relevance a b =
        courseCmp .relevance a { b with relevance := some 0 }) ∧
    (∀ a b : Course, a.popularity = none →
      courseCmp .popularity a b =
        courseCmp .popularity { a with popularity := some 0 } b) ∧
    (∀ a b : Course, b.popularity = none →
      courseCmp .popularity a b =
        courseCmp .popularity a { b with popularity := some 0 }) := by
  refine ⟨by decide, ?_, ?_, ?_, ?_, ?_, ?_⟩
  · intro key a b
    by_cases h : courseCmp key a b ≤ 0
    · exact Or.inl h
    · refine Or.inr ?_
      rw [courseCmp_swap]
      linarith
  · intro key l
    refine insertionSort_stable (courseCmp key) (courseCmp_swap key) l.enum ?_
    have h : (l.enum.map Prod.fst).Pairwise (· < ·) := by
      rw [List.enum_map_fst]
      exact List.pairwise_lt_range _
    exact List.pairwise_map.mp h
  · intro a b ha
    simp [courseCmp, ha]
  · intro a b hb
    simp [courseCmp, hb]
  · intro a b ha
    simp [courseCmp, ha]
  · intro a b hb
    simp [courseCmp, hb]

/-- Witness for C9's conditional clauses at concrete courses with a
missing and a present relevance/popularity field. -/
theorem filteredCourses_sort_spec_witness :
    courseCmp .relevance (courseWithTitle "x") (courseWithTitle "y") =
      courseCmp .relevance { courseWithTitle "x" with relevance := some 0 }
        (courseWithTitle "y") ∧
    courseCmp .popularity (courseWithTitle "x") (courseWithTitle "y") =
      courseCmp .popularity (courseWithTitle "x")
        { courseWithTitle "y" with popularity := some 0 } :=
  ⟨filteredCourses_sort_spec.2.2.2.1 (courseWithTitle "x") (courseWithTitle "y") rfl,
   filteredCourses_sort_spec.2.2.2.2.2.2 (courseWithTitle "x") (courseWithTitle "y") rfl⟩

end CareerCompass
